import Mathlib

/-!
Shallow embedding of the marubatu (tic-tac-toe) game core: the board
(`src/game/board.py`), the judge (`src/game/judge.py`) and the CPU decision
engine (`src/game/cpu.py`).  A board is the `cells` list of the Python
`Board` object: a list of strings, empty cells holding the empty string.
Cell indices that come from the outside (the GUI) are Python ints and are
modelled as `Int`; indices produced internally (pattern tables, enumerate)
are `Nat`.  The `random.choice` calls of the CPU are modelled by an explicit
`choice` function parameter; the OpenAI network call is modelled by the
numeric answer extracted from its response (`oracle_response`), `none`
standing for every failure the Python code swallows.
-/

/-- Decidable equality for Except, so that concrete runs of the decision
engine can be checked by `decide`. -/
instance {ε α : Type} [DecidableEq ε] [DecidableEq α] :
    DecidableEq (Except ε α) := fun x y =>
  match x, y with
  | Except.error e, Except.error f => decidable_of_iff (e = f) (by simp)
  | Except.error _, Except.ok _ => isFalse (fun h => Except.noConfusion h)
  | Except.ok _, Except.error _ => isFalse (fun h => Except.noConfusion h)
  | Except.ok a, Except.ok b => decidable_of_iff (a = b) (by simp)

namespace Board

/-- Board.EMPTY: the empty-cell marker, the empty string. -/
def EMPTY : String := ""

/-- Board.PLAYER_X constant. -/
def PLAYER_X : String := "X"

/-- Board.PLAYER_O constant. -/
def PLAYER_O : String := "O"

/-- Board.get_cell: the cell value at `index`, or EMPTY for an out-of-range
index (defensive default, mirrors the `0 <= index < 9` guard). -/
def get_cell (cells : List String) (index : Int) : String :=
  if 0 ≤ index ∧ index < 9 then cells.getD index.toNat EMPTY else EMPTY

/-- Board.set_cell: writes `player` at `index` iff the index is in range and
the cell currently holds EMPTY; returns the success flag together with the
updated cells list. -/
def set_cell (cells : List String) (index : Int) (player : String) :
    Bool × List String :=
  if 0 ≤ index ∧ index < 9 ∧ cells.getD index.toNat EMPTY = EMPTY then
    (true, cells.set index.toNat player)
  else
    (false, cells)

/-- Board.get_empty_cells: the indices whose cell equals EMPTY, in order
(the Python `enumerate` comprehension). -/
def get_empty_cells (cells : List String) : List Nat :=
  (List.range cells.length).filter (fun i => cells.getD i EMPTY == EMPTY)

/-- Board.is_full: true iff no cell equals EMPTY. -/
def is_full (cells : List String) : Bool :=
  !(cells.contains EMPTY)

/-- Board.get_cell_position: linear index to (row, col). -/
def get_cell_position (index : Nat) : Nat × Nat :=
  (index / 3, index % 3)

/-- Board.get_cell_index: (row, col) to linear index. -/
def get_cell_index (row col : Nat) : Nat :=
  row * 3 + col

end Board

namespace Judge

/-- Judge.WIN_PATTERNS: the 8 winning triples, 3 rows then 3 columns then
the 2 diagonals, in the table order of the source. -/
def WIN_PATTERNS : List (List Nat) :=
  [[0, 1, 2], [3, 4, 5], [6, 7, 8],
   [0, 3, 6], [1, 4, 7], [2, 5, 8],
   [0, 4, 8], [2, 4, 6]]

/-- Loop body of Judge.get_winning_line: `cells[a] != EMPTY and
cells[a] == cells[b] == cells[c]` for a pattern `[a, b, c]`. -/
def lineComplete (cells : List String) (pattern : List Nat) : Bool :=
  match pattern with
  | [a, b, c] =>
      cells.getD a Board.EMPTY != Board.EMPTY &&
      cells.getD a Board.EMPTY == cells.getD b Board.EMPTY &&
      cells.getD b Board.EMPTY == cells.getD c Board.EMPTY
  | _ => false

/-- Judge.get_winning_line: the first pattern of WIN_PATTERNS whose three
cells are equal and non-empty, else none. -/
def get_winning_line (cells : List String) : Option (List Nat) :=
  WIN_PATTERNS.find? (lineComplete cells)

/-- Judge.check_winner: the mark at the first cell of the winning line,
or none. -/
def check_winner (cells : List String) : Option String :=
  match get_winning_line cells with
  | some line => some (Board.get_cell cells ((line.headD 0 : Nat) : Int))
  | none => none

/-- Judge.check_draw: the board is full and there is no winning line. -/
def check_draw (cells : List String) : Bool :=
  Board.is_full cells && (get_winning_line cells).isNone

/-- Judge.is_game_over: there is a winning line or the board is full. -/
def is_game_over (cells : List String) : Bool :=
  (get_winning_line cells).isSome || Board.is_full cells

/-- Specification-side predicate, written after the spec wording for
get_winning_line ("all 3 cells are non-Empty and identical"): every cell of
the pattern is non-empty and equal to the first one.  It is compared with
the source-side `lineComplete` to settle the refinement claim. -/
def wonLineSpec (cells : List String) (pattern : List Nat) : Bool :=
  pattern.all (fun i => cells.getD i Board.EMPTY != Board.EMPTY) &&
  pattern.all (fun i =>
    cells.getD i Board.EMPTY == cells.getD (pattern.headD 0) Board.EMPTY)

end Judge

namespace CPU

/-- CPU.CENTER. -/
def CENTER : Nat := 4

/-- CPU.CORNERS. -/
def CORNERS : List Nat := [0, 2, 6, 8]

/-- CPU.EDGES. -/
def EDGES : List Nat := [1, 3, 5, 7]

/-- CPU._find_winning_move: over WIN_PATTERNS in table order, find the
first pattern whose values hold `player` twice and EMPTY once, and return
the pattern entry at the position of that EMPTY value. -/
def find_winning_move (cells : List String) (player : String) : Option Nat :=
  Judge.WIN_PATTERNS.findSome? (fun pattern =>
    let values := pattern.map (fun i => cells.getD i Board.EMPTY)
    if values.count player = 2 ∧ values.count Board.EMPTY = 1 then
      some (pattern.getD (values.indexOf Board.EMPTY) 0)
    else
      none)

/-- Condition of the loop body of CPU._find_winning_move, as a standalone
boolean predicate: the pattern values hold `player` twice and EMPTY once.
Used to state that _find_winning_move returns the first such pattern of the
table. -/
def winChance (cells : List String) (player : String) (pattern : List Nat) : Bool :=
  decide (((pattern.map (fun i => cells.getD i Board.EMPTY)).count player = 2) ∧
    ((pattern.map (fun i => cells.getD i Board.EMPTY)).count Board.EMPTY = 1))

/-- Cell returned by the loop body of CPU._find_winning_move for a chosen
pattern: the pattern entry at the position of the EMPTY value. -/
def winSpot (cells : List String) (pattern : List Nat) : Nat :=
  pattern.getD ((pattern.map (fun i => cells.getD i Board.EMPTY)).indexOf Board.EMPTY) 0

/-- CPU._get_rule_based_move: raise (error) when no cell is empty, else
win now, block, center, random corner, random edge, random fallback.  The
`choice` parameter stands for `random.choice`. -/
def get_rule_based_move (mark opponent_mark : String)
    (choice : List Nat → Nat) (cells : List String) : Except String Nat :=
  let empty_cells := Board.get_empty_cells cells
  if empty_cells = [] then
    Except.error "空きマスがありません"
  else
    match find_winning_move cells mark with
    | some winning_move => Except.ok winning_move
    | none =>
      match find_winning_move cells opponent_mark with
      | some blocking_move => Except.ok blocking_move
      | none =>
        if CENTER ∈ empty_cells then
          Except.ok CENTER
        else
          let available_corners := CORNERS.filter (fun c => decide (c ∈ empty_cells))
          if available_corners = [] then
            let available_edges := EDGES.filter (fun e => decide (e ∈ empty_cells))
            if available_edges = [] then
              Except.ok (choice empty_cells)
            else
              Except.ok (choice available_edges)
          else
            Except.ok (choice available_corners)

/-- CPU._get_openai_move: the network call is modelled by the numeric
answer extracted from the oracle response (`none` for any failure, which
the Python code swallows); a suggested move is used only when it is a
member of the current empty cells. -/
def get_openai_move (cells : List String) (oracle_response : Option Nat) :
    Option Nat :=
  match oracle_response with
  | some move =>
      if move ∈ Board.get_empty_cells cells then some move else none
  | none => none

/-- CPU.get_move: ask the oracle first when enabled and available, fall
back to the rule-based move otherwise. -/
def get_move (mark opponent_mark : String) (use_openai openai_available : Bool)
    (oracle_response : Option Nat) (choice : List Nat → Nat)
    (cells : List String) : Except String Nat :=
  if use_openai && openai_available then
    match get_openai_move cells oracle_response with
    | some m => Except.ok m
    | none => get_rule_based_move mark opponent_mark choice cells
  else
    get_rule_based_move mark opponent_mark choice cells

end CPU

/-- A concrete stand-in for `random.choice` used in witnesses: it picks the
head of the list, hence a member whenever the list is nonempty. -/
theorem choiceHead_valid : ∀ l : List Nat, l ≠ [] → (fun t : List Nat => t.headD 0) l ∈ l := by
  intro l h
  cases l with
  | nil => exact absurd rfl h
  | cons a t => simp [List.headD]

/-- C4: set_cell writes the mark and returns True exactly when the index is
in [0,9) and the cell is Empty; on failure it returns False and leaves the
board unchanged, and it never throws (it is a total function). -/
theorem C4_set_cell_spec (cells : List String) (index : Int) (mark : String)
    (h9 : cells.length = 9) :
    ((Board.set_cell cells index mark).1 = true ↔
      (0 ≤ index ∧ index < 9 ∧ cells.getD index.toNat Board.EMPTY = Board.EMPTY)) ∧
    ((Board.set_cell cells index mark).1 = true →
      (Board.set_cell cells index mark).2 = cells.set index.toNat mark ∧
      (Board.set_cell cells index mark).2.getD index.toNat Board.EMPTY = mark) ∧
    ((Board.set_cell cells index mark).1 = false →
      (Board.set_cell cells index mark).2 = cells) := by
  unfold Board.set_cell
  by_cases h : 0 ≤ index ∧ index < 9 ∧ cells.getD index.toNat Board.EMPTY = Board.EMPTY
  · rw [if_pos h]
    obtain ⟨h0, hlt, hemp⟩ := h
    refine ⟨Iff.intro (fun _ => ⟨h0, hlt, hemp⟩) (fun _ => rfl), fun _ => ⟨rfl, ?_⟩, by simp⟩
    have hn : index.toNat < cells.length := by omega
    rw [List.getD_eq_getElem?_getD, List.getElem?_set, if_pos rfl, if_pos hn]
    rfl
  · rw [if_neg h]
    exact ⟨by simpa using h, by simp, fun _ => rfl⟩

/-- C4 witness: on a concrete board, writing to the free cell 1 succeeds
and writing to the occupied cell 0 fails. -/
theorem C4_witness :
    (Board.set_cell ["X", "", "", "", "", "", "", "", ""] 1 "O").1 = true ∧
    (Board.set_cell ["X", "", "", "", "", "", "", "", ""] 0 "O").1 = false ∧
    (Board.set_cell ["X", "", "", "", "", "", "", "", ""] 0 "O").2 =
      ["X", "", "", "", "", "", "", "", ""] := by
  have h1 := C4_set_cell_spec ["X", "", "", "", "", "", "", "", ""] 1 "O" (by decide)
  have h0 := C4_set_cell_spec ["X", "", "", "", "", "", "", "", ""] 0 "O" (by decide)
  refine ⟨h1.1.mpr (by decide), ?_, ?_⟩
  · by_cases hb : (Board.set_cell ["X", "", "", "", "", "", "", "", ""] 0 "O").1 = true
    · exact absurd (h0.1.mp hb) (by decide)
    · simpa using hb
  · exact h0.2.2 (by decide)

/-- C9: the coordinate conversions round-trip on every cell index in
[0,9). -/
theorem C9_roundtrip (i : Nat) (h : i < 9) :
    Board.get_cell_index (Board.get_cell_position i).1 (Board.get_cell_position i).2 = i := by
  simp only [Board.get_cell_index, Board.get_cell_position]
  omega

/-- C9 witness at index 7. -/
theorem C9_witness :
    Board.get_cell_index (Board.get_cell_position 7).1 (Board.get_cell_position 7).2 = 7 :=
  C9_roundtrip 7 (by decide)

/-- C10: set_cell performs no mark validation: on an Empty in-range cell it
succeeds for any mark, including the EMPTY marker itself, in which case the
board is left unchanged, the cell still appears in get_empty_cells, and
is_full is unaffected. -/
theorem C10_set_cell_empty_mark (cells : List String) (index : Int) (mark : String)
    (h9 : cells.length = 9) (h0 : 0 ≤ index) (hlt : index < 9)
    (hemp : cells.getD index.toNat Board.EMPTY = Board.EMPTY) :
    (Board.set_cell cells index mark).1 = true ∧
    (Board.set_cell cells index Board.EMPTY).2 = cells ∧
    index.toNat ∈ Board.get_empty_cells (Board.set_cell cells index Board.EMPTY).2 ∧
    Board.is_full (Board.set_cell cells index Board.EMPTY).2 = Board.is_full cells := by
  have hn : index.toNat < cells.length := by omega
  have hguard : 0 ≤ index ∧ index < 9 ∧ cells.getD index.toNat Board.EMPTY = Board.EMPTY :=
    ⟨h0, hlt, hemp⟩
  have hval : cells[index.toNat] = Board.EMPTY := by
    rw [List.getD_eq_getElem?_getD, List.getElem?_eq_getElem hn] at hemp
    simpa using hemp
  have hcell : cells[index.toNat]? = some Board.EMPTY := by
    rw [List.getElem?_eq_getElem hn, hval]
  have hset : cells.set index.toNat Board.EMPTY = cells := by
    apply List.ext_getElem?
    intro m
    rw [List.getElem?_set]
    by_cases hm : index.toNat = m
    · subst hm
      rw [if_pos rfl, if_pos hn, hcell]
    · rw [if_neg hm]
  have h2 : (Board.set_cell cells index Board.EMPTY).2 = cells := by
    unfold Board.set_cell
    rw [if_pos hguard]
    exact hset
  refine ⟨?_, h2, ?_, by rw [h2]⟩
  · unfold Board.set_cell
    rw [if_pos hguard]
  · rw [h2]
    simp only [Board.get_empty_cells, List.mem_filter, List.mem_range, h9]
    exact ⟨by omega, by simpa [beq_iff_eq] using hemp⟩

/-- C10 witness: set_cell with the empty-string mark on free cell 2 reports
success, leaves the board unchanged, cell 2 stays among the empty cells and
is_full stays false. -/
theorem C10_witness :
    (Board.set_cell ["X", "O", "", "", "", "", "", "", ""] 2 "").1 = true ∧
    (Board.set_cell ["X", "O", "", "", "", "", "", "", ""] 2 Board.EMPTY).2 =
      ["X", "O", "", "", "", "", "", "", ""] ∧
    (2 : Int).toNat ∈ Board.get_empty_cells
      (Board.set_cell ["X", "O", "", "", "", "", "", "", ""] 2 Board.EMPTY).2 ∧
    Board.is_full (Board.set_cell ["X", "O", "", "", "", "", "", "", ""] 2 Board.EMPTY).2 =
      Board.is_full ["X", "O", "", "", "", "", "", "", ""] := by
  have h := C10_set_cell_empty_mark ["X", "O", "", "", "", "", "", "", ""] 2 ""
    (by decide) (by decide) (by decide) (by decide)
  exact h

/-- Two find? runs agree when the predicates agree on the list. -/
theorem find?_congr {α : Type} (f g : α → Bool) :
    ∀ l : List α, (∀ a ∈ l, f a = g a) → l.find? f = l.find? g
  | [], _ => rfl
  | a :: l, h => by
    rw [List.find?_cons, List.find?_cons, h a (List.mem_cons_self a l)]
    cases hg : g a
    · exact find?_congr f g l (fun x hx => h x (List.mem_cons_of_mem a hx))
    · rfl

/-- On a three-element pattern, the source-side completeness test of
Judge.get_winning_line agrees with the specification-side wording. -/
theorem lineComplete_eq_spec (cells : List String) (a b c : Nat) :
    Judge.lineComplete cells [a, b, c] = Judge.wonLineSpec cells [a, b, c] := by
  rw [Bool.eq_iff_iff]
  simp only [Judge.lineComplete, Judge.wonLineSpec, List.all_cons, List.all_nil,
    List.headD_cons, Bool.and_eq_true, Bool.and_true, bne_iff_ne, beq_iff_eq, ne_eq]
  constructor
  · rintro ⟨⟨hx, hxy⟩, hyz⟩
    refine ⟨⟨hx, ?_, ?_⟩, trivial, hxy.symm, (hxy.trans hyz).symm⟩
    · rw [← hxy]; exact hx
    · rw [← hyz, ← hxy]; exact hx
  · rintro ⟨⟨hx, -, -⟩, -, hyx, hzx⟩
    exact ⟨⟨hx, hyx.symm⟩, hyx.trans hzx.symm⟩

/-- C5: get_winning_line returns the first pattern, in the fixed table
order, whose 3 cells are all non-Empty and identical (none when no such
pattern exists), and check_winner returns the mark at the first cell of
that line, or none. -/
theorem C5_winning_line_spec (cells : List String) :
    Judge.get_winning_line cells = Judge.WIN_PATTERNS.find? (Judge.wonLineSpec cells) ∧
    (Judge.get_winning_line cells = none ↔
      ∀ p ∈ Judge.WIN_PATTERNS, Judge.wonLineSpec cells p = false) ∧
    (∀ p, Judge.get_winning_line cells = some p →
      Judge.check_winner cells = some (Board.get_cell cells ((p.headD 0 : Nat) : Int))) ∧
    (Judge.get_winning_line cells = none → Judge.check_winner cells = none) := by
  have hcong : ∀ p ∈ Judge.WIN_PATTERNS,
      Judge.lineComplete cells p = Judge.wonLineSpec cells p := by
    intro p hp
    simp only [Judge.WIN_PATTERNS, List.mem_cons, List.not_mem_nil, or_false] at hp
    rcases hp with rfl | rfl | rfl | rfl | rfl | rfl | rfl | rfl <;>
      exact lineComplete_eq_spec cells _ _ _
  have h1 : Judge.get_winning_line cells = Judge.WIN_PATTERNS.find? (Judge.wonLineSpec cells) :=
    find?_congr _ _ _ hcong
  refine ⟨h1, ?_, ?_, ?_⟩
  · rw [h1, List.find?_eq_none]
    simp
  · intro p hp
    simp [Judge.check_winner, hp]
  · intro hp
    simp [Judge.check_winner, hp]

/-- C5 witness: on a board whose top row is three X, check_winner is the
mark at cell 0; on the empty board it is none. -/
theorem C5_witness :
    Judge.check_winner ["X", "X", "X", "", "O", "O", "", "", ""] =
      some (Board.get_cell ["X", "X", "X", "", "O", "O", "", "", ""] 0) ∧
    Judge.check_winner (List.replicate 9 Board.EMPTY) = none := by
  constructor
  · exact (C5_winning_line_spec ["X", "X", "X", "", "O", "O", "", "", ""]).2.2.1
      [0, 1, 2] (by decide)
  · exact (C5_winning_line_spec (List.replicate 9 Board.EMPTY)).2.2.2 (by decide)

/-- C6: check_draw is true iff the board is full and no winning line
exists; is_game_over is true iff a winning line exists or the board is
full; a full board with no winning line is a draw with no winner. -/
theorem C6_draw_gameover_spec (cells : List String) :
    (Judge.check_draw cells = true ↔
      (Board.is_full cells = true ∧ Judge.get_winning_line cells = none)) ∧
    (Judge.is_game_over cells = true ↔
      (Judge.get_winning_line cells ≠ none ∨ Board.is_full cells = true)) ∧
    (Board.is_full cells = true → Judge.get_winning_line cells = none →
      Judge.check_draw cells = true ∧ Judge.check_winner cells = none) := by
  refine ⟨?_, ?_, fun hf hn => ⟨?_, ?_⟩⟩
  · simp [Judge.check_draw, Option.isNone_iff_eq_none]
  · simp [Judge.is_game_over, Option.isSome_iff_ne_none]
  · simp [Judge.check_draw, hf, hn]
  · simp [Judge.check_winner, hn]

/-- C6 witness: a concrete full board with no three-in-a-row is a draw
with no winner, and the game is over. -/
theorem C6_witness :
    Judge.check_draw ["X", "O", "X", "X", "O", "O", "O", "X", "X"] = true ∧
    Judge.check_winner ["X", "O", "X", "X", "O", "O", "O", "X", "X"] = none := by
  exact (C6_draw_gameover_spec ["X", "O", "X", "X", "O", "O", "O", "X", "X"]).2.2
    (by decide) (by decide)

/-- findSome? of a guarded some is find? of the guard, mapped. -/
theorem findSome?_guard {α β : Type} (p : α → Prop) [DecidablePred p] (f : α → β) :
    ∀ l : List α,
      l.findSome? (fun x => if p x then some (f x) else none) =
        (l.find? (fun x => decide (p x))).map f
  | [] => rfl
  | a :: l => by
    rw [List.findSome?_cons, List.find?_cons]
    by_cases h : p a
    · simp [h]
    · simp [h, findSome?_guard p f l]

/-- CPU._find_winning_move returns the winning spot of the first pattern of
the table that holds the player twice and EMPTY once. -/
theorem find_winning_move_eq (cells : List String) (player : String) :
    CPU.find_winning_move cells player =
      (Judge.WIN_PATTERNS.find? (CPU.winChance cells player)).map (CPU.winSpot cells) :=
  findSome?_guard
    (fun pattern : List Nat =>
      ((pattern.map (fun i => cells.getD i Board.EMPTY)).count player = 2) ∧
      ((pattern.map (fun i => cells.getD i Board.EMPTY)).count Board.EMPTY = 1))
    (CPU.winSpot cells) Judge.WIN_PATTERNS

/-- In a three-element list holding `e` exactly once, where the first two
elements differ from `e`, the third element is `e`. -/
theorem count_three_third {x y z e : String} (h : ([x, y, z] : List String).count e = 1)
    (h1 : x ≠ e) (h2 : y ≠ e) : z = e := by
  by_contra h3
  have hnm : e ∉ ([x, y, z] : List String) := by
    intro hmem
    rcases List.mem_cons.mp hmem with rfl | hmem2
    · exact h1 rfl
    rcases List.mem_cons.mp hmem2 with rfl | hmem3
    · exact h2 rfl
    rcases List.mem_cons.mp hmem3 with rfl | hmem4
    · exact h3 rfl
    · exact absurd hmem4 (List.not_mem_nil e)
  have h0 := List.count_eq_zero.mpr hnm
  omega

/-- The winning spot of a pattern whose values hold EMPTY exactly once is
an empty cell of the board, provided the pattern indices are in range. -/
theorem winSpot_mem_empty (cells : List String) (h9 : cells.length = 9)
    (a b c : Nat) (ha : a < 9) (hb : b < 9) (hc : c < 9)
    (hcount : ([a, b, c].map (fun i => cells.getD i Board.EMPTY)).count Board.EMPTY = 1) :
    CPU.winSpot cells [a, b, c] ∈ Board.get_empty_cells cells := by
  have hmem : ∀ i, i < 9 → cells.getD i Board.EMPTY = Board.EMPTY →
      i ∈ Board.get_empty_cells cells := by
    intro i hi hie
    simp only [Board.get_empty_cells, List.mem_filter, List.mem_range, h9]
    exact ⟨hi, by simpa [beq_iff_eq] using hie⟩
  have hv : [a, b, c].map (fun i => cells.getD i Board.EMPTY) =
      [cells.getD a Board.EMPTY, cells.getD b Board.EMPTY, cells.getD c Board.EMPTY] := rfl
  rw [hv] at hcount
  have hws : CPU.winSpot cells [a, b, c] =
      [a, b, c].getD ([cells.getD a Board.EMPTY, cells.getD b Board.EMPTY,
        cells.getD c Board.EMPTY].indexOf Board.EMPTY) 0 := rfl
  rw [hws]
  by_cases h1 : cells.getD a Board.EMPTY = Board.EMPTY
  · rw [List.indexOf_cons_eq _ h1]
    exact hmem a ha h1
  · by_cases h2 : cells.getD b Board.EMPTY = Board.EMPTY
    · rw [List.indexOf_cons_ne _ h1, List.indexOf_cons_eq _ h2]
      exact hmem b hb h2
    · have h3 := count_three_third hcount h1 h2
      rw [List.indexOf_cons_ne _ h1, List.indexOf_cons_ne _ h2, List.indexOf_cons_eq _ h3]
      exact hmem c hc h3

/-- A move found by CPU._find_winning_move is one of the currently empty
cells of a 9-cell board. -/
theorem find_winning_move_mem (cells : List String) (player : String)
    (h9 : cells.length = 9) (m : Nat)
    (hm : CPU.find_winning_move cells player = some m) :
    m ∈ Board.get_empty_cells cells := by
  rw [find_winning_move_eq] at hm
  rcases ho : Judge.WIN_PATTERNS.find? (CPU.winChance cells player) with _ | p
  · rw [ho] at hm
    exact absurd hm (by simp)
  · rw [ho] at hm
    obtain rfl : CPU.winSpot cells p = m := by simpa using hm
    have hp := List.find?_some ho
    have hpmem := List.mem_of_find?_eq_some ho
    simp only [CPU.winChance, decide_eq_true_eq] at hp
    have hcount := hp.2
    simp only [Judge.WIN_PATTERNS, List.mem_cons, List.not_mem_nil, or_false] at hpmem
    rcases hpmem with rfl | rfl | rfl | rfl | rfl | rfl | rfl | rfl <;>
      exact winSpot_mem_empty cells h9 _ _ _ (by decide) (by decide) (by decide) hcount

/-- C1: the rule-based selection follows the strict priority order win-now,
block, center, corner, edge, fallback, returning the cell of the first
applicable rule; a winning move is the Empty cell of the first pattern in
table order holding the engine mark twice and EMPTY once; on the empty
board the result is index 4. -/
theorem C1_priority_order (mark opponent_mark : String) (choice : List Nat → Nat)
    (cells : List String) (hne : Board.get_empty_cells cells ≠ []) :
    (∀ m, CPU.find_winning_move cells mark = some m →
      CPU.get_rule_based_move mark opponent_mark choice cells = Except.ok m) ∧
    (CPU.find_winning_move cells mark = none →
      ∀ m, CPU.find_winning_move cells opponent_mark = some m →
      CPU.get_rule_based_move mark opponent_mark choice cells = Except.ok m) ∧
    (CPU.find_winning_move cells mark = none →
      CPU.find_winning_move cells opponent_mark = none →
      CPU.CENTER ∈ Board.get_empty_cells cells →
      CPU.get_rule_based_move mark opponent_mark choice cells = Except.ok CPU.CENTER) ∧
    (CPU.find_winning_move cells mark = none →
      CPU.find_winning_move cells opponent_mark = none →
      CPU.CENTER ∉ Board.get_empty_cells cells →
      CPU.CORNERS.filter (fun c => decide (c ∈ Board.get_empty_cells cells)) ≠ [] →
      CPU.get_rule_based_move mark opponent_mark choice cells =
        Except.ok (choice (CPU.CORNERS.filter
          (fun c => decide (c ∈ Board.get_empty_cells cells))))) ∧
    (CPU.find_winning_move cells mark = none →
      CPU.find_winning_move cells opponent_mark = none →
      CPU.CENTER ∉ Board.get_empty_cells cells →
      CPU.CORNERS.filter (fun c => decide (c ∈ Board.get_empty_cells cells)) = [] →
      CPU.EDGES.filter (fun e => decide (e ∈ Board.get_empty_cells cells)) ≠ [] →
      CPU.get_rule_based_move mark opponent_mark choice cells =
        Except.ok (choice (CPU.EDGES.filter
          (fun e => decide (e ∈ Board.get_empty_cells cells))))) ∧
    (CPU.find_winning_move cells mark = none →
      CPU.find_winning_move cells opponent_mark = none →
      CPU.CENTER ∉ Board.get_empty_cells cells →
      CPU.CORNERS.filter (fun c => decide (c ∈ Board.get_empty_cells cells)) = [] →
      CPU.EDGES.filter (fun e => decide (e ∈ Board.get_empty_cells cells)) = [] →
      CPU.get_rule_based_move mark opponent_mark choice cells =
        Except.ok (choice (Board.get_empty_cells cells))) ∧
    (∀ p, Judge.WIN_PATTERNS.find? (CPU.winChance cells mark) = some p →
      CPU.find_winning_move cells mark = some (CPU.winSpot cells p)) ∧
    CPU.get_rule_based_move "X" "O" choice (List.replicate 9 Board.EMPTY) =
      Except.ok 4 := by
  refine ⟨?_, ?_, ?_, ?_, ?_, ?_, ?_, ?_⟩
  · intro m hw
    simp [CPU.get_rule_based_move, hne, hw]
  · intro hw m hb
    simp [CPU.get_rule_based_move, hne, hw, hb]
  · intro hw hb hc
    simp [CPU.get_rule_based_move, hne, hw, hb, hc]
  · intro hw hb hc hcor
    simp [CPU.get_rule_based_move, hne, hw, hb, hc, hcor]
  · intro hw hb hc hcor hedge
    simp [CPU.get_rule_based_move, hne, hw, hb, hc, hcor, hedge]
  · intro hw hb hc hcor hedge
    simp [CPU.get_rule_based_move, hne, hw, hb, hc, hcor, hedge]
  · intro p hp
    rw [find_winning_move_eq, hp]
    rfl
  · rfl

/-- C1 witness: on a board where X can win at cell 2, the rule-based
selection with mark X returns 2 by the win-now rule. -/
theorem C1_witness :
    CPU.get_rule_based_move "X" "O" (fun l => l.headD 0)
      ["X", "X", "", "", "O", "O", "", "", ""] = Except.ok 2 :=
  (C1_priority_order "X" "O" (fun l => l.headD 0)
    ["X", "X", "", "", "O", "O", "", "", ""] (by decide)).1 2 (by decide)

/-- C2 counterexample: with engine mark O on the cited board, the
rule-based selection does not return the blocking cell 2: O has its own
winning move (cell 3 completes the middle row), and win-now precedes
blocking. -/
theorem C2_counterexample :
    ¬ (CPU.get_rule_based_move "O" "X" (fun l => l.headD 0)
        ["X", "X", "", "", "O", "O", "", "", ""] = Except.ok 2) := by decide

/-- C2 amended: on the cited board, mark O returns index 3 (its own
winning cell, chosen over blocking), in particular neither 2 nor 5; mark X
returns index 2 (the winning cell).  The result does not depend on the
random source. -/
theorem C2_amended_moves (choice : List Nat → Nat) :
    CPU.get_rule_based_move "O" "X" choice ["X", "X", "", "", "O", "O", "", "", ""] =
      Except.ok 3 ∧
    CPU.get_rule_based_move "X" "O" choice ["X", "X", "", "", "O", "O", "", "", ""] =
      Except.ok 2 :=
  ⟨rfl, rfl⟩

/-- C3: on a 9-cell board with at least one empty cell and a random source
that picks a member of its list, the rule-based selection returns Except.ok
of an index that is among get_empty_cells; the error branch is not taken. -/
theorem C3_rule_based_valid (mark opponent_mark : String) (choice : List Nat → Nat)
    (cells : List String) (h9 : cells.length = 9)
    (hchoice : ∀ l : List Nat, l ≠ [] → choice l ∈ l)
    (hne : Board.get_empty_cells cells ≠ []) :
    ∃ m, CPU.get_rule_based_move mark opponent_mark choice cells = Except.ok m ∧
      m ∈ Board.get_empty_cells cells := by
  rcases hw : CPU.find_winning_move cells mark with _ | m
  · rcases hb : CPU.find_winning_move cells opponent_mark with _ | m
    · by_cases hc : CPU.CENTER ∈ Board.get_empty_cells cells
      · exact ⟨CPU.CENTER, by simp [CPU.get_rule_based_move, hne, hw, hb, hc], hc⟩
      · by_cases hcor : CPU.CORNERS.filter
            (fun c => decide (c ∈ Board.get_empty_cells cells)) = []
        · by_cases hedge : CPU.EDGES.filter
              (fun e => decide (e ∈ Board.get_empty_cells cells)) = []
          · exact ⟨choice (Board.get_empty_cells cells),
              by simp [CPU.get_rule_based_move, hne, hw, hb, hc, hcor, hedge],
              hchoice _ hne⟩
          · refine ⟨choice (CPU.EDGES.filter
                (fun e => decide (e ∈ Board.get_empty_cells cells))),
              by simp [CPU.get_rule_based_move, hne, hw, hb, hc, hcor, hedge], ?_⟩
            exact of_decide_eq_true (List.mem_filter.mp (hchoice _ hedge)).2
        · refine ⟨choice (CPU.CORNERS.filter
              (fun c => decide (c ∈ Board.get_empty_cells cells))),
            by simp [CPU.get_rule_based_move, hne, hw, hb, hc, hcor], ?_⟩
          exact of_decide_eq_true (List.mem_filter.mp (hchoice _ hcor)).2
    · exact ⟨m, by simp [CPU.get_rule_based_move, hne, hw, hb],
        find_winning_move_mem cells opponent_mark h9 m hb⟩
  · exact ⟨m, by simp [CPU.get_rule_based_move, hne, hw],
      find_winning_move_mem cells mark h9 m hw⟩

/-- C3 witness on the empty board. -/
theorem C3_witness :
    ∃ m, CPU.get_rule_based_move "X" "O" (fun l => l.headD 0)
        (List.replicate 9 Board.EMPTY) = Except.ok m ∧
      m ∈ Board.get_empty_cells (List.replicate 9 Board.EMPTY) :=
  C3_rule_based_valid "X" "O" (fun l => l.headD 0) (List.replicate 9 Board.EMPTY)
    (by decide) choiceHead_valid (by decide)

/-- C7: requesting a move on a board with no empty cells yields the
dedicated precondition error (the ValueError of the source), for every
oracle configuration; the function is total, so no other crash is
possible. -/
theorem C7_full_board_error (mark opponent_mark : String)
    (use_openai openai_available : Bool) (oracle_response : Option Nat)
    (choice : List Nat → Nat) (cells : List String)
    (hfull : Board.get_empty_cells cells = []) :
    CPU.get_move mark opponent_mark use_openai openai_available oracle_response
      choice cells = Except.error "空きマスがありません" := by
  have hrb : CPU.get_rule_based_move mark opponent_mark choice cells =
      Except.error "空きマスがありません" := by
    simp [CPU.get_rule_based_move, hfull]
  have hoa : CPU.get_openai_move cells oracle_response = none := by
    cases oracle_response with
    | none => rfl
    | some m => simp [CPU.get_openai_move, hfull]
  by_cases h : (use_openai && openai_available) = true
  · simp [CPU.get_move, h, hoa, hrb]
  · simp [CPU.get_move, h, hrb]

/-- C7 witness on a concrete full board with the oracle enabled and
suggesting cell 3. -/
theorem C7_witness :
    CPU.get_move "X" "O" true true (some 3) (fun l => l.headD 0)
      ["X", "O", "X", "O", "X", "O", "X", "O", "X"] =
      Except.error "空きマスがありません" :=
  C7_full_board_error "X" "O" true true (some 3) (fun l => l.headD 0)
    ["X", "O", "X", "O", "X", "O", "X", "O", "X"] (by decide)

/-- C8 counterexample: a board with the center occupied and all corners
empty on which the rule-based selection returns edge 1, because the engine
mark X has a winning move there (column 1-4-7), and win-now precedes the
corner rule. -/
theorem C8_counterexample :
    (["", "", "", "", "X", "", "", "X", ""].getD 4 Board.EMPTY ≠ Board.EMPTY) ∧
    (∀ c ∈ CPU.CORNERS,
      ["", "", "", "", "X", "", "", "X", ""].getD c Board.EMPTY = Board.EMPTY) ∧
    CPU.get_rule_based_move "X" "O" (fun l => l.headD 0)
      ["", "", "", "", "X", "", "", "X", ""] = Except.ok 1 ∧
    (1 : Nat) ∉ CPU.CORNERS := by decide

/-- C8 amended: on a 9-cell board whose center is occupied, whose corners
are all empty, and on which neither mark has an immediate winning move, the
rule-based selection returns one of the corners 0, 2, 6, 8. -/
theorem C8_amended_corner (mark opponent_mark : String) (choice : List Nat → Nat)
    (cells : List String) (h9 : cells.length = 9)
    (hchoice : ∀ l : List Nat, l ≠ [] → choice l ∈ l)
    (hcenter : cells.getD 4 Board.EMPTY ≠ Board.EMPTY)
    (hcorners : ∀ c ∈ CPU.CORNERS, cells.getD c Board.EMPTY = Board.EMPTY)
    (hwin : CPU.find_winning_move cells mark = none)
    (hblock : CPU.find_winning_move cells opponent_mark = none) :
    ∃ m, CPU.get_rule_based_move mark opponent_mark choice cells = Except.ok m ∧
      m ∈ CPU.CORNERS := by
  have hmem : ∀ i, i < 9 → cells.getD i Board.EMPTY = Board.EMPTY →
      i ∈ Board.get_empty_cells cells := by
    intro i hi hie
    simp only [Board.get_empty_cells, List.mem_filter, List.mem_range, h9]
    exact ⟨hi, by simpa [beq_iff_eq] using hie⟩
  have h0mem : (0 : Nat) ∈ Board.get_empty_cells cells :=
    hmem 0 (by decide) (hcorners 0 (by decide))
  have hne : Board.get_empty_cells cells ≠ [] := by
    intro hnil
    rw [hnil] at h0mem
    exact absurd h0mem (List.not_mem_nil 0)
  have hcen : CPU.CENTER ∉ Board.get_empty_cells cells := by
    intro hc
    apply hcenter
    simp only [CPU.CENTER, Board.get_empty_cells, List.mem_filter, List.mem_range] at hc
    exact beq_iff_eq.mp hc.2
  have hfilter : CPU.CORNERS.filter
      (fun c => decide (c ∈ Board.get_empty_cells cells)) ≠ [] := by
    intro hnil
    have h0f : (0 : Nat) ∈ CPU.CORNERS.filter
        (fun c => decide (c ∈ Board.get_empty_cells cells)) := by
      rw [List.mem_filter]
      exact ⟨by decide, decide_eq_true h0mem⟩
    rw [hnil] at h0f
    exact absurd h0f (List.not_mem_nil 0)
  refine ⟨choice (CPU.CORNERS.filter
    (fun c => decide (c ∈ Board.get_empty_cells cells))), ?_, ?_⟩
  · simp [CPU.get_rule_based_move, hne, hwin, hblock, hcen, hfilter]
  · exact (List.mem_filter.mp (hchoice _ hfilter)).1

/-- C8 witness: center occupied by X, one O elsewhere on an edge, all
corners free, no winning move on either side. -/
theorem C8_witness :
    ∃ m, CPU.get_rule_based_move "X" "O" (fun l => l.headD 0)
        ["", "", "", "O", "X", "", "", "", ""] = Except.ok m ∧
      m ∈ CPU.CORNERS :=
  C8_amended_corner "X" "O" (fun l => l.headD 0) ["", "", "", "O", "X", "", "", "", ""]
    (by decide) choiceHead_valid (by decide) (by decide) (by decide) (by decide)
